import Mathlib

/-!
Shallow embedding of the InstaClick content script (src/content.js), the
preview manager (src/preview.js) and the background service worker, together
with a model of the browser URL constructor (WHATWG URL standard) that those
scripts rely on. Text is modelled as `List Char`; the HTML string output of
`linkifyText` is modelled at the segment level (plain text runs and anchors).
-/

namespace InstaClick

/-- ASCII lowercase conversion; models JavaScript toLowerCase on ASCII data. -/
def lowerAscii (c : Char) : Char :=
  if 65 ≤ c.toNat ∧ c.toNat ≤ 90 then Char.ofNat (c.toNat + 32) else c

def lowerStr (s : List Char) : List Char := s.map lowerAscii

def isAsciiAlpha (c : Char) : Bool :=
  decide (97 ≤ c.toNat ∧ c.toNat ≤ 122) || decide (65 ≤ c.toNat ∧ c.toNat ≤ 90)

def isAsciiDigit (c : Char) : Bool := decide (48 ≤ c.toNat ∧ c.toNat ≤ 57)

def isAsciiAlnum (c : Char) : Bool := isAsciiAlpha c || isAsciiDigit c

/-- Characters allowed in a URL scheme after the first (WHATWG). -/
def isSchemeChar (c : Char) : Bool :=
  isAsciiAlnum c || c == '+' || c == '-' || c == '.'

/-- Boolean test whether `p` is a prefix of `s` (on character lists). -/
def startsWithL : List Char → List Char → Bool
  | _, [] => true
  | [], _ :: _ => false
  | c :: cs, p :: ps => (c == p) && startsWithL cs ps

def endsWithL (s p : List Char) : Bool := startsWithL s.reverse p.reverse

/-- JavaScript String.split with a single-character separator. -/
def splitChar (sep : Char) : List Char → List (List Char)
  | [] => [[]]
  | c :: cs =>
    let r := splitChar sep cs
    if c == sep then [] :: r
    else
      match r with
      | h :: t => (c :: h) :: t
      | [] => [[c]]

/-- Decimal digit characters of a natural number. -/
def natToCharsAux : Nat → Nat → List Char → List Char
  | 0, _, acc => acc
  | f + 1, n, acc =>
    let d := Char.ofNat (48 + n % 10)
    if n < 10 then d :: acc else natToCharsAux f (n / 10) (d :: acc)

def natToChars (n : Nat) : List Char := natToCharsAux (n + 1) n []

def digitsToNat (l : List Char) : Nat := l.foldl (fun a c => a * 10 + (c.toNat - 48)) 0

/-- C0 control characters and space, removed from the ends of URL input (WHATWG). -/
def isC0OrSpace (c : Char) : Bool := decide (c.toNat ≤ 32)

def isTabOrNL (c : Char) : Bool := c == '\t' || c == '\n' || c == '\r'

/-- WHATWG URL input preprocessing: trim C0/space from both ends, strip tabs and newlines. -/
def preprocess (s : List Char) : List Char :=
  (((s.dropWhile isC0OrSpace).reverse.dropWhile isC0OrSpace).reverse).filter
    (fun c => !isTabOrNL c)

/-- Split off a leading `scheme:`; fails when the input has no valid scheme. -/
def splitScheme (s : List Char) : Option (List Char × List Char) :=
  let sch := s.takeWhile isSchemeChar
  let rest := s.dropWhile isSchemeChar
  match sch, rest with
  | c :: cs, ':' :: r => if isAsciiAlpha c then some (c :: cs, r) else none
  | _, _ => none

/-- Result of parsing a URL; models the browser URL object for the fields the
scripts read (protocol, hostname, href). -/
structure URLRec where
  scheme : String
  userinfo : String
  host : String
  port : Option Nat
  path : String
  query : Option String
  fragment : Option String
  hasAuthority : Bool
  deriving DecidableEq

def URLRec.protocol (u : URLRec) : String := u.scheme ++ ":"

def URLRec.href (u : URLRec) : String :=
  u.scheme ++ ":" ++
  (if u.hasAuthority then
    "//" ++ (if u.userinfo = "" then "" else u.userinfo ++ "@") ++ u.host ++
      (match u.port with
       | some p => ":" ++ String.mk (natToChars p)
       | none => "")
   else "") ++
  u.path ++
  (match u.query with
   | some q => "?" ++ q
   | none => "") ++
  (match u.fragment with
   | some fr => "#" ++ fr
   | none => "")

def specialSchemes : List String := ["ftp", "file", "http", "https", "ws", "wss"]

def defaultPort : String → Option Nat
  | "ftp" => some 21
  | "http" => some 80
  | "https" => some 443
  | "ws" => some 80
  | "wss" => some 443
  | _ => none

/-- Forbidden host code points (WHATWG). Tabs and newlines are already stripped. -/
def forbiddenHostChar (c : Char) : Bool :=
  decide (c.toNat = 0) || c == '\t' || c == '\n' || c == '\r' || c == ' ' || c == '#' ||
  c == '/' || c == ':' || c == '<' || c == '>' || c == '?' || c == '@' || c == '[' ||
  c == '\\' || c == ']' || c == '^' || c == '|'

/-- Split `userinfo@hostport` at the last `@`. -/
def splitUserinfo (a : List Char) : List Char × List Char :=
  match a.reverse.span (fun c => !(c == '@')) with
  | (hostRev, []) => ([], hostRev.reverse)
  | (hostRev, _ :: userRev) => (userRev.reverse, hostRev.reverse)

/-- Split `host:port` at the first `:`. -/
def splitPort (hp : List Char) : List Char × Option (List Char) :=
  match hp.span (fun c => !(c == ':')) with
  | (h, []) => (h, none)
  | (h, _ :: p) => (h, some p)

/-- One dotted-decimal IPv4 part: nonempty digits, no leading zero, value at most 255.
Model restriction: hex and octal IPv4 parts are not supported and fail. -/
def ipv4Part (p : List Char) : Option Nat :=
  if !p.isEmpty && p.all isAsciiDigit && (p.length == 1 || !(p.headD 'x' == '0')) then
    let n := digitsToNat p
    if n ≤ 255 then some n else none
  else none

/-- The last host label, ignoring a single trailing empty label (WHATWG ends-in-number). -/
def lastHostLabel (labels : List (List Char)) : List Char :=
  match labels.getLast? with
  | some [] => (labels.dropLast).getLastD []
  | some l => l
  | none => []

def hostEndsInNumber (labels : List (List Char)) : Bool :=
  let l := lastHostLabel labels
  !l.isEmpty && l.all isAsciiDigit

/-- IPv4 host parsing, restricted to dotted-decimal quads; serialized canonically. -/
def parseIPv4 (labels : List (List Char)) : Option String :=
  let parts := match labels.getLast? with
    | some [] => labels.dropLast
    | _ => labels
  if parts.length == 4 then
    match parts.mapM ipv4Part with
    | some ns =>
      some (String.mk (String.intercalate "." ((ns.map fun n => String.mk (natToChars n))) ).data)
    | none => none
  else none

/-- Host parser for special schemes (domains). Model restrictions relative to the
browser: non-ASCII hosts (IDNA) and percent-encoded hosts are rejected rather
than decoded, and only dotted-decimal IPv4 literals are accepted. -/
def parseHost (hostStr : List Char) : Option String :=
  if hostStr.isEmpty then none
  else if hostStr.any (fun c => forbiddenHostChar c || c == '%' || decide (126 < c.toNat)) then
    none
  else
    let h := lowerStr hostStr
    let labels := splitChar '.' h
    if hostEndsInNumber labels then parseIPv4 labels
    else some (String.mk h)

/-- Opaque host for non-special schemes: forbidden characters rejected, case kept. -/
def parseOpaqueHost (hostStr : List Char) : Option String :=
  if hostStr.any forbiddenHostChar then none else some (String.mk hostStr)

/-- Port string: empty or all digits up to 65535; a default port serializes as absent. -/
def parsePort (s : List Char) (scheme : String) : Option (Option Nat) :=
  if s.isEmpty then some none
  else if s.all isAsciiDigit then
    let n := digitsToNat s
    if n ≤ 65535 then
      if defaultPort scheme = some n then some none else some (some n)
    else none
  else none

def isSingleDot (s : List Char) : Bool := s == ['.']
def isDoubleDot (s : List Char) : Bool := s == ['.', '.']

/-- WHATWG dot-segment removal over the list of path segments. -/
def resolveDotSegs : List (List Char) → List (List Char) → List (List Char)
  | acc, [] => acc
  | acc, [s] =>
    if isDoubleDot s then acc.dropLast ++ [[]]
    else if isSingleDot s then acc ++ [[]]
    else acc ++ [s]
  | acc, s :: rest =>
    if isDoubleDot s then resolveDotSegs acc.dropLast rest
    else if isSingleDot s then resolveDotSegs acc rest
    else resolveDotSegs (acc ++ [s]) rest

def joinSegs (segs : List (List Char)) : List Char :=
  match segs with
  | [] => []
  | [s] => s
  | s :: rest => s ++ '/' :: joinSegs rest

/-- Path serialization for special schemes: backslash acts as slash, dot segments
resolved, empty path serialized as a single slash. Model restriction: characters
that the browser would percent-encode are kept as given. -/
def serializePath (rawPath : List Char) : String :=
  let p := rawPath.map (fun c => if c == '\\' then '/' else c)
  match p with
  | [] => "/"
  | _ =>
    let segs := (splitChar '/' p).drop 1
    String.mk ('/' :: joinSegs (resolveDotSegs [] segs))

/-- Path serialization for non-special schemes with a slash-initial path. -/
def serializePathNS (rawPath : List Char) : String :=
  match rawPath with
  | [] => ""
  | _ =>
    let segs := (splitChar '/' rawPath).drop 1
    String.mk ('/' :: joinSegs (resolveDotSegs [] segs))

/-- Split the part after the path into query and fragment. -/
def splitQueryFrag (after : List Char) : Option String × Option String :=
  match after with
  | '?' :: q =>
    let qc := q.takeWhile (fun c => !(c == '#'))
    let fc := q.dropWhile (fun c => !(c == '#'))
    (some (String.mk qc),
      match fc with
      | '#' :: f => some (String.mk f)
      | _ => none)
  | '#' :: f => (none, some (String.mk f))
  | _ => (none, none)

/-- Model of the browser URL constructor on an absolute URL string (no base).
Follows the WHATWG basic URL parser for special http(s)-style URLs: input
preprocessing, scheme, slack slashes, userinfo, host with IPv4 detection, port
with defaults, dot-normalized path, query and fragment. Model restrictions
(documented at the helper parsers): no IDNA or percent-decoding in hosts, no
hex/octal IPv4, no percent-encoding on serialization, and file URLs are
unsupported. Non-special schemes keep their path unresolved when it does not
start with a slash, as in the standard. -/
def parseURL (input : String) : Option URLRec :=
  let s := preprocess input.data
  match splitScheme s with
  | none => none
  | some (schChars, rest) =>
    let scheme := String.mk (lowerStr schChars)
    if specialSchemes.contains scheme then
      if scheme = "file" then none
      else
        let r := rest.dropWhile (fun c => c == '/' || c == '\\')
        let auth := r.takeWhile (fun c => !(c == '/' || c == '\\' || c == '?' || c == '#'))
        let afterAuth := r.dropWhile (fun c => !(c == '/' || c == '\\' || c == '?' || c == '#'))
        let ui := splitUserinfo auth
        let hp := splitPort ui.2
        match parseHost hp.1 with
        | none => none
        | some host =>
          let portRes := match hp.2 with
            | none => some none
            | some pc => parsePort pc scheme
          match portRes with
          | none => none
          | some port =>
            let pathChars := afterAuth.takeWhile (fun c => !(c == '?' || c == '#'))
            let afterPath := afterAuth.dropWhile (fun c => !(c == '?' || c == '#'))
            let qf := splitQueryFrag afterPath
            some { scheme := scheme, userinfo := String.mk ui.1, host := host, port := port,
                   path := serializePath pathChars, query := qf.1, fragment := qf.2,
                   hasAuthority := true }
    else
      match rest with
      | '/' :: '/' :: r2 =>
        let auth := r2.takeWhile (fun c => !(c == '/' || c == '?' || c == '#'))
        let afterAuth := r2.dropWhile (fun c => !(c == '/' || c == '?' || c == '#'))
        let ui := splitUserinfo auth
        let hp := splitPort ui.2
        match parseOpaqueHost hp.1 with
        | none => none
        | some host =>
          let portRes := match hp.2 with
            | none => some none
            | some pc => parsePort pc scheme
          match portRes with
          | none => none
          | some port =>
            let pathChars := afterAuth.takeWhile (fun c => !(c == '?' || c == '#'))
            let afterPath := afterAuth.dropWhile (fun c => !(c == '?' || c == '#'))
            let qf := splitQueryFrag afterPath
            some { scheme := scheme, userinfo := String.mk ui.1, host := host, port := port,
                   path := serializePathNS pathChars, query := qf.1, fragment := qf.2,
                   hasAuthority := true }
      | _ =>
        let pathChars := rest.takeWhile (fun c => !(c == '?' || c == '#'))
        let afterPath := rest.dropWhile (fun c => !(c == '?' || c == '#'))
        let qf := splitQueryFrag afterPath
        let path := match pathChars with
          | '/' :: _ => serializePathNS pathChars
          | _ => String.mk pathChars
        some { scheme := scheme, userinfo := "", host := "", port := none,
               path := path, query := qf.1, fragment := qf.2, hasAuthority := false }

/-! Constants and pure helpers of src/content.js. -/

/-- VALID_TLDS from src/content.js lines 29 to 35. -/
def VALID_TLDS : List String :=
  ["com", "org", "net", "edu", "gov", "co", "io", "ai", "app", "dev",
   "me", "info", "biz", "us", "uk", "ca", "au", "de", "fr", "it",
   "es", "nl", "ru", "jp", "cn", "in", "br", "mx", "kr", "tv",
   "xyz", "online", "site", "tech", "store", "blog", "shop", "club", "live", "news",
   "social", "link", "page", "web", "cloud", "space", "world", "pro", "gg", "be"]

/-- The test url.match of the pattern caret-https?-colon-slash-slash with flag i. -/
def hasHttpScheme (s : String) : Bool :=
  startsWithL (lowerStr s.data) "http://".data || startsWithL (lowerStr s.data) "https://".data

/-- The scheme-prepending step at the top of sanitizeUrl. -/
def withScheme (urlString : String) : String :=
  if hasHttpScheme urlString then urlString else "https://" ++ urlString

/-- sanitizeUrl from src/content.js lines 85 to 113: prepend https when the
input has no http(s) scheme, parse it, allow only http and https protocols,
then validate the hostname: its last dot-separated label must be a known TLD,
or the hostname must have at least two dot-separated labels. A parse error
returns null (modelled as none). -/
def sanitizeUrl (urlString : String) : Option String :=
  match parseURL (withScheme urlString) with
  | none => none
  | some parsed =>
    if !(["http:", "https:"].contains parsed.protocol) then none
    else
      let hostname := lowerStr parsed.host.data
      let parts := splitChar '.' hostname
      let tld := String.mk (parts.getLastD [])
      if !(VALID_TLDS.contains tld) && parts.length < 2 then none
      else some parsed.href

/-- The FILE_EXTENSIONS list from src/content.js line 26. -/
def FILE_EXTENSIONS : List String :=
  ["js", "css", "png", "jpg", "jpeg", "gif", "svg", "webp", "ico",
   "woff", "woff2", "ttf", "eot", "map"]

/-- isFileExtension from src/content.js lines 134 to 136: the anchored,
case-insensitive test that the text ends in a dot followed by a listed
extension. -/
def isFileExtension (text : String) : Bool :=
  FILE_EXTENSIONS.any (fun ext => endsWithL (lowerStr text.data) ('.' :: ext.data))

/-- JavaScript String.trim, modelled on ASCII whitespace. -/
def jsTrim (s : List Char) : List Char :=
  ((s.dropWhile isC0OrSpace).reverse.dropWhile isC0OrSpace).reverse

/-- isTruncatedUrl from src/content.js lines 127 to 129: the trimmed text ends
in two or more dots, or in a horizontal-ellipsis character. -/
def isTruncatedUrl (text : String) : Bool :=
  endsWithL (jsTrim text.data) "..".data || endsWithL (jsTrim text.data) "…".data

/-! A small backtracking regular-expression engine with JavaScript semantics
(leftmost match, alternation preferring the left branch, greedy quantifiers,
word boundaries, single-character negative lookbehind, case-insensitive
literals), used to embed URL_REGEX from src/content.js line 23. -/

inductive RE where
  | fail
  | eps
  | cls (p : Char → Bool)
  | lit (l : List Char)
  | seq (a b : RE)
  | alt (a b : RE)
  | star (r : RE)
  | rep (r : RE) (lo hi : Nat)
  | wb
  | nlb (p : Char → Bool)

def optRE (r : RE) : RE := RE.alt r RE.eps
def plusRE (r : RE) : RE := RE.seq r (RE.star r)
def chRE (c : Char) : RE := RE.lit [c]

def orElseO (a b : Option Nat) : Option Nat :=
  match a with
  | some x => some x
  | none => b

/-- Case-insensitive literal match starting at index i; returns the end index. -/
def litMatch : List Char → List Char → Nat → Option Nat
  | [], _, i => some i
  | c :: cs, s, i =>
    match s.get? i with
    | some d => if lowerAscii d == c then litMatch cs s (i + 1) else none
    | none => none

def isWordChar (c : Char) : Bool := isAsciiAlnum c || c == '_'

def wordAt (s : List Char) (i : Nat) : Bool :=
  match s.get? i with
  | some c => isWordChar c
  | none => false

/-- Fueled continuation-passing backtracking matcher. `reMatch f r s i k` tries
to match `r` in `s` starting at index `i` and passes the end index to `k`;
the first success in JavaScript backtracking order wins. -/
def reMatch : Nat → RE → List Char → Nat → (Nat → Option Nat) → Option Nat
  | 0, _, _, _, _ => none
  | _ + 1, RE.fail, _, _, _ => none
  | _ + 1, RE.eps, _, i, k => k i
  | _ + 1, RE.cls p, s, i, k =>
    match s.get? i with
    | some c => if p c then k (i + 1) else none
    | none => none
  | _ + 1, RE.lit l, s, i, k =>
    match litMatch l s i with
    | some j => k j
    | none => none
  | f + 1, RE.seq a b, s, i, k => reMatch f a s i (fun j => reMatch f b s j k)
  | f + 1, RE.alt a b, s, i, k => orElseO (reMatch f a s i k) (reMatch f b s i k)
  | f + 1, RE.star r, s, i, k =>
    orElseO (reMatch f r s i (fun j => if j == i then none else reMatch f (RE.star r) s j k))
      (k i)
  | f + 1, RE.rep r lo hi, s, i, k =>
    match lo, hi with
    | 0, 0 => k i
    | 0, h + 1 =>
      orElseO (reMatch f r s i (fun j => if j == i then none else reMatch f (RE.rep r 0 h) s j k))
        (k i)
    | _ + 1, 0 => none
    | l + 1, h + 1 => reMatch f r s i (fun j => reMatch f (RE.rep r l h) s j k)
  | _ + 1, RE.wb, s, i, k =>
    let before := if i == 0 then false else wordAt s (i - 1)
    if before != wordAt s i then k i else none
  | _ + 1, RE.nlb p, s, i, k =>
    if i == 0 then k i
    else
      match s.get? (i - 1) with
      | some c => if p c then none else k i
      | none => k i

/-! Character classes of URL_REGEX (flag i: letters are matched in both cases). -/

def midUrlChar (c : Char) : Bool :=
  c == '-' || isAsciiAlnum c || c == '@' || c == ':' || c == '%' || c == '.' ||
  c == '_' || c == '+' || c == '~' || c == '#' || c == '='

def tailUrlChar (c : Char) : Bool :=
  c == '-' || isAsciiAlnum c || c == '@' || c == ':' || c == '%' || c == '_' ||
  c == '+' || c == '.' || c == '~' || c == '#' || c == '?' || c == '&' || c == '/' ||
  c == '=' || c == '(' || c == ')'

def labelChar (c : Char) : Bool := c == '-' || isAsciiAlnum c

/-- The class of the negative lookbehind before a bare domain. -/
def noBareUrlBefore (c : Char) : Bool := isAsciiAlnum c || c == '@' || c == '.'

def pathStartChar (c : Char) : Bool := c == '/' || c == '?' || c == '#'

/-- The TLD alternation of the bare-domain half of URL_REGEX, in source order. -/
def BARE_TLDS : List String :=
  ["com", "org", "net", "edu", "gov", "co", "io", "ai", "app", "dev", "me", "info",
   "biz", "xyz", "online", "site", "tech", "store", "blog", "shop", "club", "live",
   "news", "social", "link", "page", "web", "cloud", "space", "world", "pro", "gg",
   "tv", "be"]

def tldAlt : RE := (BARE_TLDS.map (fun t => RE.lit t.data)).foldr RE.alt RE.fail

/-- First half of URL_REGEX: prefixed URLs, https?://(www.)? or www. followed by
an alphanumeric, up to 255 middle characters, a dot, 2 to 63 letters, a word
boundary and a greedy tail. -/
def prefixedUrlRE : RE :=
  RE.seq
    (RE.alt
      (RE.seq (RE.lit "http".data)
        (RE.seq (optRE (RE.lit "s".data))
          (RE.seq (RE.lit "://".data) (optRE (RE.lit "www.".data)))))
      (RE.lit "www.".data))
    (RE.seq (RE.cls isAsciiAlnum)
      (RE.seq (RE.rep (RE.cls midUrlChar) 0 255)
        (RE.seq (chRE '.')
          (RE.seq (RE.rep (RE.cls isAsciiAlpha) 2 63)
            (RE.seq RE.wb (RE.star (RE.cls tailUrlChar)))))))

/-- Second half of URL_REGEX: bare domains with a known TLD, guarded by a
negative lookbehind, with an optional path starting in slash, question mark or
hash. -/
def bareDomainRE : RE :=
  RE.seq (RE.nlb noBareUrlBefore)
    (RE.seq (plusRE (RE.seq (RE.cls isAsciiAlnum) (RE.seq (RE.star (RE.cls labelChar)) (chRE '.'))))
      (RE.seq tldAlt
        (RE.seq RE.wb
          (optRE (RE.seq (RE.cls pathStartChar) (RE.star (RE.cls tailUrlChar)))))))

/-- URL_REGEX from src/content.js line 23. -/
def URL_REGEX : RE := RE.alt prefixedUrlRE bareDomainRE

/-- Fuel that comfortably covers the sequential depth of any URL_REGEX attempt. -/
def reFuel (s : List Char) : Nat := 200 + 8 * s.length

/-- Attempt a match of URL_REGEX at index i; returns the end index. -/
def matchAt (s : List Char) (i : Nat) : Option Nat := reMatch (reFuel s) URL_REGEX s i some

/-- Scan indices pos, pos+1, ... for the first match, as exec does on a global
regex; returns the match index and length. -/
def findFrom (s : List Char) : Nat → Nat → Option (Nat × Nat)
  | 0, _ => none
  | f + 1, pos =>
    match matchAt s pos with
    | some e => some (pos, e - pos)
    | none => findFrom s f (pos + 1)

def findMatchFrom (s : List Char) (pos : Nat) : Option (Nat × Nat) :=
  findFrom s (s.length + 1 - pos) pos

/-- A piece of linkifyText output: a plain text run (HTML-escaped by the
source) or an anchor with its sanitized href and its literal label text. -/
inductive Seg where
  | text (t : List Char)
  | anchor (href : String) (label : List Char)
  deriving DecidableEq

def sliceL (s : List Char) (a b : Nat) : List Char := (s.drop a).take (b - a)

/-- The exec loop of linkifyText, src/content.js lines 228 to 265: repeatedly
take the next match; skip it when it looks like a file extension or a truncated
URL or when the sanitizer rejects it (the skipped text stays inside the next
plain run); otherwise emit the pending plain text and an anchor whose href is
the sanitized URL and whose label is the matched text. The fuel only bounds
the loop; URL_REGEX cannot match the empty string, so with fuel larger than
the text length the zero-fuel branch is unreachable. -/
def linkifyScan (s : List Char) : Nat → Nat → Nat → List Seg
  | 0, _, last => [Seg.text (s.drop last)]
  | f + 1, pos, last =>
    match findMatchFrom s pos with
    | none => [Seg.text (s.drop last)]
    | some (i, L) =>
      let m := sliceL s i (i + L)
      if isFileExtension (String.mk m) || isTruncatedUrl (String.mk m) then
        linkifyScan s f (i + L) last
      else
        match sanitizeUrl (String.mk m) with
        | none => linkifyScan s f (i + L) last
        | some u => Seg.text (sliceL s last i) :: Seg.anchor u m :: linkifyScan s f (i + L) (i + L)

/-- linkifyText from src/content.js lines 228 to 265, at segment level. -/
def linkifyText (text : String) : List Seg :=
  linkifyScan text.data (text.data.length + 1) 0 0

/-- Concatenated visible text of the output segments, in order. -/
def segText : Seg → List Char
  | Seg.text t => t
  | Seg.anchor _ l => l

def flattenSegs (l : List Seg) : List Char := l.foldr (fun sg acc => segText sg ++ acc) []

def isAnchorSeg : Seg → Bool
  | Seg.anchor _ _ => true
  | Seg.text _ => false

def countAnchors (l : List Seg) : Nat := (l.filter isAnchorSeg).length

/-! DOM model and processElement, src/content.js lines 270 to 370. -/

/-- Content-script settings, src/content.js lines 66 to 73. -/
structure Settings where
  enabled : Bool
  openInNewTab : Bool
  showPreview : Bool
  highlightLinks : Bool
  linkStyle : String
  trackHistory : Bool
  deriving DecidableEq

def defaultSettings : Settings :=
  { enabled := true, openInNewTab := true, showPreview := true,
    highlightLinks := true, linkStyle := "default", trackHistory := false }

/-- A DOM subtree: an element with tag, attributes and children, or a text node. -/
inductive DomNode where
  | elem (tag : String) (attrs : List (String × String)) (children : List DomNode)
  | textNode (t : String)

mutual

def beqNode : DomNode → DomNode → Bool
  | DomNode.textNode a, DomNode.textNode b => a == b
  | DomNode.elem t1 a1 c1, DomNode.elem t2 a2 c2 => t1 == t2 && a1 == a2 && beqNodes c1 c2
  | _, _ => false

def beqNodes : List DomNode → List DomNode → Bool
  | [], [] => true
  | x :: xs, y :: ys => beqNode x y && beqNodes xs ys
  | _, _ => false

end

def hasAttr (attrs : List (String × String)) (name : String) : Bool :=
  attrs.any (fun p => p.1 == name)

/-- The anchor markup built in linkifyText lines 252 to 256: href, optional
target, rel, style class and the data attribute, containing the favicon image
and the escaped matched text. -/
def anchorNode (st : Settings) (href : String) (label : List Char) : DomNode :=
  DomNode.elem "A"
    ([("href", href)] ++
     (if st.openInNewTab then [("target", "_blank")] else []) ++
     [("rel", "noopener noreferrer"),
      ("class", "instaclick-link instaclick-style-" ++ st.linkStyle),
      ("data-instaclick-url", href)])
    [DomNode.elem "IMG" [("class", "instaclick-favicon"), ("alt", "")] [],
     DomNode.textNode (String.mk label)]

def segToNode (st : Settings) : Seg → DomNode
  | Seg.text t => DomNode.textNode (String.mk t)
  | Seg.anchor u lbl => anchorNode st u lbl

mutual

/-- The tree walk of processElement together with processTextNode: a text node
is eligible unless its parent is an anchor, script or style, an ancestor is an
anchor, or it is whitespace-only; an eligible node whose linkified form has at
least one anchor is replaced by the segment nodes, and the number of anchors is
counted. -/
def transformNode (st : Settings) (parentTag : String) (underA : Bool) :
    DomNode → Nat × List DomNode
  | DomNode.textNode t =>
    if parentTag == "A" || underA || parentTag == "SCRIPT" || parentTag == "STYLE" ||
        (jsTrim t.data).isEmpty then
      (0, [DomNode.textNode t])
    else
      let segs := linkifyText t
      let n := countAnchors segs
      if n == 0 then (0, [DomNode.textNode t])
      else (n, segs.map (segToNode st))
  | DomNode.elem tag attrs children =>
    let r := transformNodes st tag (underA || tag == "A") children
    (r.1, [DomNode.elem tag attrs r.2])

def transformNodes (st : Settings) (parentTag : String) (underA : Bool) :
    List DomNode → Nat × List DomNode
  | [] => (0, [])
  | c :: cs =>
    let r1 := transformNode st parentTag underA c
    let r2 := transformNodes st parentTag underA cs
    (r1.1 + r2.1, r1.2 ++ r2.2)

end

/-- processElement, src/content.js lines 329 to 370: skip when disabled, when
the element already carries the processed mark, when it is or sits inside an
anchor, or when it is script or style; otherwise set the mark and linkify the
eligible descendant text nodes. Returns the number of created links and the
updated subtree. `underA` states whether an ancestor is an anchor (the closest
check of the source). -/
def processElement (st : Settings) (underA : Bool) : DomNode → Nat × DomNode
  | DomNode.textNode t => (0, DomNode.textNode t)
  | DomNode.elem tag attrs children =>
    if !st.enabled then (0, DomNode.elem tag attrs children)
    else if hasAttr attrs "data-instaclick-processed" then (0, DomNode.elem tag attrs children)
    else if tag == "A" || underA then (0, DomNode.elem tag attrs children)
    else if tag == "SCRIPT" || tag == "STYLE" then (0, DomNode.elem tag attrs children)
    else
      let attrs2 := attrs ++ [("data-instaclick-processed", "true")]
      let r := transformNodes st tag underA children
      (r.1, DomNode.elem tag attrs2 r.2)

/-- LinkProcessor.add, src/content.js lines 189 to 193: an element already
carrying the processed mark is not queued. -/
def linkProcessorAdd (queue : List DomNode) (el : DomNode) : List DomNode :=
  match el with
  | DomNode.elem _ attrs _ =>
    if hasAttr attrs "data-instaclick-processed" then queue
    else if queue.any (fun q => beqNode q el) then queue
    else queue ++ [el]
  | DomNode.textNode _ => queue

/-! Preview manager model, src/preview.js. -/

/-- The fixed-shape metadata record produced by the fetch handlers. -/
structure PreviewData where
  ptype : String
  url : String
  domain : String
  favicon : String
  title : String
  description : String
  image : Option String
  siteBadge : Option String
  is404 : Bool
  deriving DecidableEq

structure TimedEntry where
  data : PreviewData
  timestamp : Nat
  deriving DecidableEq

/-- cacheDuration from the constructor, src/preview.js line 9: 30 minutes. -/
def cacheDuration : Nat := 30 * 60 * 1000

/-- Map.set on the cache, src/preview.js lines 84 to 89. -/
def setCache (cache : List (String × TimedEntry)) (url : String) (d : PreviewData)
    (now : Nat) : List (String × TimedEntry) :=
  if cache.any (fun p => p.1 == url) then
    cache.map (fun p => if p.1 == url then (url, ⟨d, now⟩) else p)
  else cache ++ [(url, ⟨d, now⟩)]

def cacheGet (cache : List (String × TimedEntry)) (url : String) : Option TimedEntry :=
  match cache.find? (fun p => p.1 == url) with
  | some p => some p.2
  | none => none

def cacheDelete (cache : List (String × TimedEntry)) (url : String) :
    List (String × TimedEntry) :=
  cache.filter (fun p => !(p.1 == url))

/-- getFromCache, src/preview.js lines 91 to 101: a missing entry is null; an
entry whose age strictly exceeds cacheDuration is deleted and reported null;
otherwise the stored data is returned. -/
def getFromCache (cache : List (String × TimedEntry)) (url : String) (now : Nat) :
    Option PreviewData × List (String × TimedEntry) :=
  match cacheGet cache url with
  | none => (none, cache)
  | some e =>
    if cacheDuration < now - e.timestamp then (none, cacheDelete cache url)
    else (some e.data, cache)

/-- A network request as issued by fetchGenericPreview line 593: the fetch call
receives no abort signal, so `signalController` is none for every request the
source issues. -/
structure FetchReq where
  url : String
  signalController : Option Nat
  deriving DecidableEq

/-- Preview manager state: the cache, the currently hovered URL, the rendered
card data (none while the loading skeleton shows), dead-link marks, the current
AbortController (by id), the set of aborted controller ids, the outstanding
network requests, and a fresh-id counter. -/
structure MgrState where
  cache : List (String × TimedEntry)
  currentUrl : Option String
  rendered : Option PreviewData
  deadLinks : List String
  fetchController : Option Nat
  aborted : List Nat
  inflight : List FetchReq
  nextId : Nat
  deriving DecidableEq

/-- The constructor state, src/preview.js lines 7 to 19. -/
def initialMgr : MgrState :=
  { cache := [], currentUrl := none, rendered := none, deadLinks := [],
    fetchController := none, aborted := [], inflight := [], nextId := 0 }

/-- The synchronous part of show, src/preview.js lines 363 to 403: record the
new current URL, abort the previous controller if any, serve from cache when
fresh, otherwise show the skeleton, create a new controller and issue the fetch
(whose request carries no signal, as in the source). -/
def showSync (st : MgrState) (url : String) (now : Nat) : MgrState :=
  if url = "" then st
  else
    let st1 := { st with currentUrl := some url }
    let st2 := match st1.fetchController with
      | some c => { st1 with aborted := c :: st1.aborted }
      | none => st1
    match getFromCache st2.cache url now with
    | (some d, c2) => { st2 with cache := c2, rendered := some d }
    | (none, c2) =>
      { st2 with
          cache := c2
          rendered := none
          fetchController := some st2.nextId
          nextId := st2.nextId + 1
          inflight := st2.inflight ++ [{ url := url, signalController := none }] }

/-- The completion handler of the fetch issued by show, src/preview.js lines
401 to 412: when the current URL is no longer the one the fetch was issued for,
the result is dropped; otherwise it is cached, rendered, and dead links are
marked. -/
def onFetchSuccess (st : MgrState) (reqUrl : String) (d : PreviewData) (now : Nat) : MgrState :=
  if st.currentUrl = some reqUrl then
    { st with
        cache := setCache st.cache reqUrl d now
        rendered := some d
        deadLinks := if d.is404 then reqUrl :: st.deadLinks else st.deadLinks }
  else st

/-- Whether the network layer would cancel a request: only a request whose
attached signal belongs to an aborted controller is cancelled. -/
def requestCancelled (st : MgrState) (r : FetchReq) : Bool :=
  match r.signalController with
  | some c => st.aborted.contains c
  | none => false

/-! Background service worker model: trackLinkClick. -/

structure HistEntry where
  url : String
  hostname : String
  timestamp : Nat
  id : String
  deriving DecidableEq

structure ClickStats where
  totalClicks : Nat
  domains : List (String × Nat)
  deriving DecidableEq

structure LocalStore where
  clickHistory : List HistEntry
  stats : ClickStats
  deriving DecidableEq

structure TrackResp where
  success : Bool
  tracked : Option Bool
  deriving DecidableEq

/-- hostname.replace of one leading www. prefix. -/
def stripWww (h : String) : String :=
  if startsWithL h.data "www.".data then String.mk (h.data.drop 4) else h

def bumpDomain (ds : List (String × Nat)) (h : String) : List (String × Nat) :=
  if ds.any (fun p => p.1 == h) then
    ds.map (fun p => if p.1 == h then (p.1, p.2 + 1) else p)
  else ds ++ [(h, 1)]

/-- trackLinkClick from the background service worker: reject a missing URL;
report success without touching storage when history tracking is disabled;
otherwise build an entry from the parsed hostname (leading www. stripped), the
time and a random id, put it at the front of the history, keep the latest 100,
and bump the aggregate stats. A URL parse failure is caught and reported as
failure with storage unchanged. -/
def trackLinkClick (trackHistory : Bool) (store : LocalStore) (url : String)
    (now : Nat) (randId : String) : TrackResp × LocalStore :=
  if url = "" then ({ success := false, tracked := none }, store)
  else if !trackHistory then ({ success := true, tracked := some false }, store)
  else
    match parseURL url with
    | none => ({ success := false, tracked := none }, store)
    | some u =>
      let entry : HistEntry :=
        { url := url, hostname := stripWww u.host, timestamp := now,
          id := String.mk (natToChars now) ++ "-" ++ randId }
      let hist2 := (entry :: store.clickHistory).take 100
      let stats2 : ClickStats :=
        { totalClicks := store.stats.totalClicks + 1,
          domains := bumpDomain store.stats.domains entry.hostname }
      ({ success := true, tracked := some true }, { clickHistory := hist2, stats := stats2 })

/-- Sample metadata record used by concrete witnesses. -/
def samplePreview (t : String) : PreviewData :=
  { ptype := "website", url := t, domain := "example.com", favicon := "", title := t,
    description := "", image := none, siteBadge := none, is404 := false }

/-! Helper lemmas about the scanner. -/

theorem findFrom_ge (s : List Char) :
    ∀ f pos i L, findFrom s f pos = some (i, L) → pos ≤ i := by
  intro f
  induction f with
  | zero => intro pos i L h; simp [findFrom] at h
  | succ f ih =>
    intro pos i L h
    unfold findFrom at h
    cases hm : matchAt s pos with
    | some e =>
      rw [hm] at h
      simp only [Option.some.injEq, Prod.mk.injEq] at h
      omega
    | none =>
      rw [hm] at h
      exact Nat.le_trans (Nat.le_succ pos) (ih (pos + 1) i L h)

theorem findMatchFrom_ge (s : List Char) (pos i L : Nat)
    (h : findMatchFrom s pos = some (i, L)) : pos ≤ i :=
  findFrom_ge s _ pos i L h

theorem sliceL_append_drop (s : List Char) (a b : Nat) (h : a ≤ b) :
    sliceL s a b ++ s.drop b = s.drop a := by
  unfold sliceL
  have h2 : (s.drop a).drop (b - a) = s.drop b := by
    rw [List.drop_drop]
    congr 1
    omega
  rw [← h2, List.take_append_drop]

theorem flattenSegs_nil : flattenSegs [] = [] := rfl

theorem flattenSegs_cons (x : Seg) (l : List Seg) :
    flattenSegs (x :: l) = segText x ++ flattenSegs l := rfl

/-- Every scan state with pending text position at most the scan position
flattens back to the tail of the input: nothing is dropped or duplicated. -/
theorem flatten_linkifyScan (s : List Char) :
    ∀ f pos last, last ≤ pos → flattenSegs (linkifyScan s f pos last) = s.drop last := by
  intro f
  induction f with
  | zero => intro pos last _; simp [linkifyScan, flattenSegs, segText]
  | succ f ih =>
    intro pos last hle
    unfold linkifyScan
    cases hm : findMatchFrom s pos with
    | none => simp [flattenSegs, segText]
    | some iL =>
      obtain ⟨i, L⟩ := iL
      have hpi : pos ≤ i := findMatchFrom_ge s pos i L hm
      have hlast_i : last ≤ i := Nat.le_trans hle hpi
      have hlast_iL : last ≤ i + L := Nat.le_trans hlast_i (Nat.le_add_right _ _)
      simp only
      cases hb : (isFileExtension (String.mk (sliceL s i (i + L))) ||
          isTruncatedUrl (String.mk (sliceL s i (i + L)))) with
      | true =>
        simp only [hb, if_true]
        exact ih (i + L) last hlast_iL
      | false =>
        simp only [hb, Bool.false_eq_true, if_false]
        cases hs : sanitizeUrl (String.mk (sliceL s i (i + L))) with
        | none => exact ih (i + L) last hlast_iL
        | some u =>
          rw [flattenSegs_cons, flattenSegs_cons]
          rw [ih (i + L) (i + L) (Nat.le_refl _)]
          show sliceL s last i ++ (sliceL s i (i + L) ++ s.drop (i + L)) = s.drop last
          rw [sliceL_append_drop s i (i + L) (Nat.le_add_right _ _)]
          exact sliceL_append_drop s last i hlast_i

/-- Every anchor the scanner emits was matched, passed both skip filters, and
carries exactly the href produced by sanitizeUrl on its label. -/
theorem linkifyScan_anchor_mem (s : List Char) :
    ∀ f pos last u lbl, Seg.anchor u lbl ∈ linkifyScan s f pos last →
      sanitizeUrl (String.mk lbl) = some u ∧ isFileExtension (String.mk lbl) = false ∧
        isTruncatedUrl (String.mk lbl) = false := by
  intro f
  induction f with
  | zero =>
    intro pos last u lbl h
    simp [linkifyScan] at h
  | succ f ih =>
    intro pos last u lbl h
    unfold linkifyScan at h
    cases hm : findMatchFrom s pos with
    | none =>
      rw [hm] at h
      simp at h
    | some iL =>
      obtain ⟨i, L⟩ := iL
      rw [hm] at h
      simp only at h
      cases hb : (isFileExtension (String.mk (sliceL s i (i + L))) ||
          isTruncatedUrl (String.mk (sliceL s i (i + L)))) with
      | true =>
        rw [hb, if_pos rfl] at h
        exact ih (i + L) last u lbl h
      | false =>
        rw [hb] at h
        simp only [Bool.false_eq_true, if_false] at h
        cases hs : sanitizeUrl (String.mk (sliceL s i (i + L))) with
        | none =>
          rw [hs] at h
          exact ih (i + L) last u lbl h
        | some v =>
          rw [hs] at h
          simp only [List.mem_cons] at h
          rcases h with h | h | h
          · exact absurd h (by simp)
          · have hu : u = v ∧ lbl = sliceL s i (i + L) := by
              cases h
              exact ⟨rfl, rfl⟩
            obtain ⟨hu1, hu2⟩ := hu
            subst hu1
            subst hu2
            refine ⟨hs, ?_, ?_⟩
            · cases hfe : isFileExtension (String.mk (sliceL s i (i + L))) with
              | false => rfl
              | true => rw [hfe] at hb; simp at hb
            · cases htr : isTruncatedUrl (String.mk (sliceL s i (i + L))) with
              | false => rfl
              | true => rw [htr] at hb; simp at hb
          · exact ih (i + L) (i + L) u lbl h

/-- One accepted step of the scanner, written as an explicit equation. -/
theorem linkifyScan_step_emit (s : List Char) (f pos last i L : Nat) (u : String)
    (hfind : findMatchFrom s pos = some (i, L))
    (hskip : (isFileExtension (String.mk (sliceL s i (i + L))) ||
      isTruncatedUrl (String.mk (sliceL s i (i + L)))) = false)
    (hsan : sanitizeUrl (String.mk (sliceL s i (i + L))) = some u) :
    linkifyScan s (f + 1) pos last =
      Seg.text (sliceL s last i) :: Seg.anchor u (sliceL s i (i + L)) ::
        linkifyScan s f (i + L) (i + L) := by
  rw [linkifyScan.eq_def]
  simp only [hfind, hskip, Bool.false_eq_true, if_false, hsan]

/-! Claim theorems. -/

/-- C1 (counterexample): the claim that sanitizeUrl returns null for every
input whose URL parse yields a scheme other than http or https fails on the
input a.b:80/x. Its own parse yields the scheme a.b (protocol a.b:), yet
sanitizeUrl accepts it: prepending https:// turns the scheme text into a
hostname with a valid port, and the two-label fallback admits the host. -/
theorem sanitizeUrl_nonHttpScheme_accepted :
    (parseURL "a.b:80/x").map URLRec.protocol = some "a.b:" ∧
    sanitizeUrl "a.b:80/x" = some "https://a.b:80/x" :=
  ⟨by decide, by decide⟩

/-- C1 (amended): sanitizeUrl rejects javascript:alert(1), linkifyText leaves
that string entirely as plain text, and in general every anchor linkifyText
emits carries exactly the href that sanitizeUrl produced for its matched label
text, so a sanitizer-rejected candidate is never linkified. -/
theorem linkify_sanitizer_gate :
    sanitizeUrl "javascript:alert(1)" = none ∧
    linkifyText "javascript:alert(1)" = [Seg.text "javascript:alert(1)".data] ∧
    ∀ (text u : String) (lbl : List Char),
      Seg.anchor u lbl ∈ linkifyText text → sanitizeUrl (String.mk lbl) = some u := by
  refine ⟨by decide, by decide, fun text u lbl h => ?_⟩
  exact (linkifyScan_anchor_mem text.data _ 0 0 u lbl h).1

/-- C1 witness: the anchor gate applied at a concrete text with an anchor. -/
theorem linkify_sanitizer_gate_witness :
    Seg.anchor "https://example.com/" "example.com".data ∈ linkifyText "example.com" ∧
    sanitizeUrl (String.mk "example.com".data) = some "https://example.com/" :=
  ⟨by decide, linkify_sanitizer_gate.2.2 "example.com" _ _ (by decide)⟩

/-- C2 (counterexample): the input https://example.com/path.js contains the
well-formed substring https://example.com/path, which does not end in a listed
file extension and is not followed by a truncation ellipsis, yet linkifyText
produces no anchor at all: the regex match extends over the .js suffix and the
whole match is skipped as file-extension-like. -/
theorem linkify_extension_swallows_substring :
    startsWithL "https://example.com/path.js".data "https://example.com/path".data = true ∧
    linkifyText "https://example.com/path.js" =
      [Seg.text "https://example.com/path.js".data] :=
  ⟨by decide, by decide⟩

/-- C2 (amended): whenever the left-to-right scan matches exactly the substring
https://example.com/path (the occurrence is not extended by adjacent URL
characters into a longer or skipped candidate), linkifyText emits exactly one
anchor for that occurrence, and its href is the sanitized URL
https://example.com/path returned by sanitizeUrl for the matched substring. -/
theorem linkify_exact_match_single_anchor (text : String) (i L : Nat)
    (hfind : findMatchFrom text.data 0 = some (i, L))
    (hslice : sliceL text.data i (i + L) = "https://example.com/path".data) :
    linkifyText text =
      Seg.text (sliceL text.data 0 i) ::
        Seg.anchor "https://example.com/path" (sliceL text.data i (i + L)) ::
          linkifyScan text.data text.data.length (i + L) (i + L) := by
  unfold linkifyText
  refine linkifyScan_step_emit text.data text.data.length 0 0 i L "https://example.com/path"
    hfind ?_ ?_
  · rw [hslice]; decide
  · rw [hslice]; decide

/-- C2 witness: at "see https://example.com/path now" the scan matches exactly
the substring at index 4 with length 24, and one anchor with the sanitized
href is produced for it. -/
theorem linkify_exact_match_single_anchor_witness :
    findMatchFrom "see https://example.com/path now".data 0 = some (4, 24) ∧
    linkifyText "see https://example.com/path now" =
      Seg.text "see ".data ::
        Seg.anchor "https://example.com/path" "https://example.com/path".data ::
          linkifyScan "see https://example.com/path now".data 32 28 28 :=
  ⟨by decide, linkify_exact_match_single_anchor "see https://example.com/path now" 4 24
    (by decide) (by decide)⟩

/-- C3: sanitizeUrl returns a non-null normalized URL exactly when the input,
after prepending https:// if it has no http(s) scheme, parses as a URL whose
protocol is http: or https:, and either the last dot-separated label of the
lowercased hostname is in VALID_TLDS or the hostname splits into at least two
dot-separated labels. -/
theorem sanitizeUrl_accepts_iff (s : String) :
    (sanitizeUrl s).isSome = true ↔
      ∃ u : URLRec, parseURL (withScheme s) = some u ∧
        ["http:", "https:"].contains u.protocol = true ∧
        (VALID_TLDS.contains
            (String.mk ((splitChar '.' (lowerStr u.host.data)).getLastD [])) = true ∨
          2 ≤ (splitChar '.' (lowerStr u.host.data)).length) := by
  unfold sanitizeUrl
  cases hp : parseURL (withScheme s) with
  | none =>
    constructor
    · intro h
      exact absurd h (by simp)
    · rintro ⟨v, hv, _⟩
      exact absurd hv (by simp)
  | some u =>
    simp only [Option.some.injEq, exists_eq_left']
    by_cases hproto : (["http:", "https:"].contains u.protocol) = true
    · simp only [hproto, Bool.not_true, Bool.false_eq_true, if_false, true_and]
      by_cases htld : VALID_TLDS.contains
          (String.mk ((splitChar '.' (lowerStr u.host.data)).getLastD [])) = true
      · simp only [htld, Bool.not_true, Bool.false_and, Bool.false_eq_true, if_false,
          Option.isSome_some, true_iff]
        exact Or.inl trivial
      · have htld2 : VALID_TLDS.contains
            (String.mk ((splitChar '.' (lowerStr u.host.data)).getLastD [])) = false := by
          cases hb : VALID_TLDS.contains
              (String.mk ((splitChar '.' (lowerStr u.host.data)).getLastD [])) with
          | false => rfl
          | true => exact absurd hb htld
        simp only [htld2, Bool.not_false, Bool.true_and, Bool.false_eq_true, false_or]
        by_cases hlen : (splitChar '.' (lowerStr u.host.data)).length < 2
        · rw [if_pos (by simpa using hlen)]
          simp only [Option.isSome_none, Bool.false_eq_true, false_iff]
          omega
        · rw [if_neg (by simpa using hlen)]
          simp only [Option.isSome_some, true_iff]
          omega
    · have hproto2 : (["http:", "https:"].contains u.protocol) = false := by
        cases hb : (["http:", "https:"].contains u.protocol) with
        | false => rfl
        | true => exact absurd hb hproto
      simp only [hproto2, Bool.not_false, if_true, Option.isSome_none, Bool.false_eq_true,
        false_and, iff_false, not_false_eq_true]

/-- C4: no anchor is ever produced for a token ending in a listed file
extension: the token notaurl.exe yields no anchor at all, and every anchor
label in any linkifyText output fails the isFileExtension test (matches ending
in a listed extension are skipped). -/
theorem linkify_skips_file_extensions :
    linkifyText "notaurl.exe" = [Seg.text "notaurl.exe".data] ∧
    ∀ (text u : String) (lbl : List Char),
      Seg.anchor u lbl ∈ linkifyText text → isFileExtension (String.mk lbl) = false := by
  refine ⟨by decide, fun text u lbl h => ?_⟩
  exact (linkifyScan_anchor_mem text.data _ 0 0 u lbl h).2.1

/-- C4 witness: the extension filter applied at a concrete anchor. -/
theorem linkify_skips_file_extensions_witness :
    Seg.anchor "https://www.foo.com:8080/" "www.foo.com:8080".data ∈
      linkifyText "www.foo.com:8080" ∧
    isFileExtension (String.mk "www.foo.com:8080".data) = false :=
  ⟨by decide, linkify_skips_file_extensions.2 "www.foo.com:8080" "https://www.foo.com:8080/"
    ("www.foo.com:8080".data) (by decide)⟩

/-- C5: an element that already carries the data-instaclick-processed mark is
skipped entirely by processElement: the call returns 0 created links and the
subtree is returned unchanged, so repeated processing is idempotent. -/
theorem processElement_marked_noop (st : Settings) (underA : Bool) (tag : String)
    (attrs : List (String × String)) (children : List DomNode)
    (h : hasAttr attrs "data-instaclick-processed" = true) :
    processElement st underA (DomNode.elem tag attrs children) =
      (0, DomNode.elem tag attrs children) := by
  unfold processElement
  cases hen : st.enabled with
  | false => simp [hen]
  | true => simp [hen, h]

/-- C5 witness: a concrete marked element is returned unchanged. -/
theorem processElement_marked_noop_witness :
    processElement defaultSettings false
        (DomNode.elem "DIV" [("data-instaclick-processed", "true")]
          [DomNode.textNode "go example.com now"]) =
      (0, DomNode.elem "DIV" [("data-instaclick-processed", "true")]
        [DomNode.textNode "go example.com now"]) :=
  processElement_marked_noop defaultSettings false "DIV"
    [("data-instaclick-processed", "true")] [DomNode.textNode "go example.com now"]
    (by decide)

/-- Lookup after a map-overwrite update finds the new entry. -/
theorem find_map_update (cache : List (String × TimedEntry)) (url : String) (e : TimedEntry)
    (h : cache.any (fun p => p.1 == url) = true) :
    (cache.map (fun p => if p.1 == url then (url, e) else p)).find?
      (fun p => p.1 == url) = some (url, e) := by
  induction cache with
  | nil => simp at h
  | cons p ps ih =>
    simp only [List.map_cons]
    by_cases hp : (p.1 == url) = true
    · rw [if_pos hp]
      simp [List.find?]
    · have hp2 : (p.1 == url) = false := by
        cases hb : (p.1 == url) with
        | false => rfl
        | true => exact absurd hb hp
      rw [if_neg hp]
      rw [List.find?]
      simp only [hp2]
      apply ih
      simp only [List.any_cons, hp2, Bool.false_or] at h
      exact h

/-- Lookup after appending a fresh entry finds that entry. -/
theorem find_append_new (cache : List (String × TimedEntry)) (url : String) (e : TimedEntry)
    (h : cache.any (fun p => p.1 == url) = false) :
    (cache ++ [(url, e)]).find? (fun p => p.1 == url) = some (url, e) := by
  induction cache with
  | nil => simp [List.find?]
  | cons p ps ih =>
    simp only [List.any_cons, Bool.or_eq_false_iff] at h
    simp only [List.cons_append, List.find?, h.1]
    exact ih h.2

theorem cacheGet_setCache (cache : List (String × TimedEntry)) (url : String)
    (d : PreviewData) (now : Nat) :
    cacheGet (setCache cache url d now) url = some ⟨d, now⟩ := by
  unfold setCache cacheGet
  by_cases hany : (cache.any (fun p => p.1 == url)) = true
  · rw [if_pos hany, find_map_update cache url ⟨d, now⟩ hany]
  · have hany2 : (cache.any (fun p => p.1 == url)) = false := by
      cases hb : (cache.any (fun p => p.1 == url)) with
      | false => rfl
      | true => exact absurd hb hany
    rw [if_neg hany, find_append_new cache url ⟨d, now⟩ hany2]

/-- C6: for an entry inserted at time t1, a lookup at time t2 past t1 is a
cache miss when the age exceeds the 30-minute cacheDuration, and returns
exactly the stored data when the age is within it. -/
theorem getFromCache_ttl (cache : List (String × TimedEntry)) (url : String)
    (d : PreviewData) (t1 t2 : Nat) (h : t1 < t2) :
    (cacheDuration < t2 - t1 →
      (getFromCache (setCache cache url d t1) url t2).1 = none) ∧
    (t2 - t1 ≤ cacheDuration →
      (getFromCache (setCache cache url d t1) url t2).1 = some d) := by
  have hget := cacheGet_setCache cache url d t1
  constructor
  · intro hgt
    unfold getFromCache
    rw [hget]
    split
    · rfl
    · rename_i e heq
      injection heq with heq2
      subst heq2
      split
      · rfl
      · rename_i hcon
        exact absurd hgt hcon
  · intro hle
    unfold getFromCache
    rw [hget]
    split
    · rename_i heq
      exact Option.noConfusion heq
    · rename_i e heq
      injection heq with heq2
      subst heq2
      split
      · rename_i hcon
        exact absurd (show cacheDuration < t2 - t1 from hcon) (by omega)
      · rfl

/-- C6 witness: a concrete entry at time 0 misses at 1800001 ms and hits with
the stored data at 1800000 ms. -/
theorem getFromCache_ttl_witness :
    (getFromCache (setCache [] "https://a.com/" (samplePreview "a") 0)
      "https://a.com/" 1800001).1 = none ∧
    (getFromCache (setCache [] "https://a.com/" (samplePreview "a") 0)
      "https://a.com/" 1800000).1 = some (samplePreview "a") :=
  ⟨(getFromCache_ttl [] "https://a.com/" (samplePreview "a") 0 1800001 (by decide)).1
      (by decide),
   (getFromCache_ttl [] "https://a.com/" (samplePreview "a") 0 1800000 (by decide)).2
      (by decide)⟩

theorem showSync_currentUrl (st : MgrState) (url : String) (now : Nat) (h : url ≠ "") :
    (showSync st url now).currentUrl = some url := by
  unfold showSync
  rw [if_neg h]
  cases hc : st.fetchController <;>
    · simp only [hc]
      split <;> rfl

/-- C7: after show is called for URL A and then for URL B (with A distinct
from B), the completion of the fetch issued for A leaves the manager state
untouched, and the completion of the fetch for B renders exactly the data
fetched for B. -/
theorem show_stale_fetch_discarded (st0 : MgrState) (A B : String) (dA dB : PreviewData)
    (t1 t2 t3 t4 : Nat) (hAB : A ≠ B) (hB : B ≠ "") :
    onFetchSuccess (showSync (showSync st0 A t1) B t2) A dA t3 =
      showSync (showSync st0 A t1) B t2 ∧
    (onFetchSuccess (showSync (showSync st0 A t1) B t2) B dB t4).rendered = some dB := by
  have hcur := showSync_currentUrl (showSync st0 A t1) B t2 hB
  constructor
  · unfold onFetchSuccess
    rw [hcur, if_neg (fun hcon => hAB (Option.some.inj hcon).symm)]
  · unfold onFetchSuccess
    rw [hcur, if_pos rfl]

/-- C7 witness: concrete hovers for two distinct URLs. -/
theorem show_stale_fetch_discarded_witness :
    onFetchSuccess (showSync (showSync initialMgr "https://a.com/" 0) "https://b.com/" 1)
        "https://a.com/" (samplePreview "a") 2 =
      showSync (showSync initialMgr "https://a.com/" 0) "https://b.com/" 1 ∧
    (onFetchSuccess (showSync (showSync initialMgr "https://a.com/" 0) "https://b.com/" 1)
        "https://b.com/" (samplePreview "b") 3).rendered = some (samplePreview "b") :=
  show_stale_fetch_discarded initialMgr "https://a.com/" "https://b.com/"
    (samplePreview "a") (samplePreview "b") 0 1 2 3 (by decide) (by decide)

/-- C8 (code behaviour at the failing input): showing URL A issues a fetch
whose request carries no abort signal, because the source never passes the
AbortController signal to fetch. Showing URL B then calls abort on the
controller (it lands in the aborted set), yet the request for A is still in
flight and is not cancelled: only its completed result would be discarded. -/
theorem show_abort_not_wired :
    (showSync (showSync initialMgr "https://a.com/" 0) "https://b.com/" 1).aborted = [0] ∧
    ({ url := "https://a.com/", signalController := none } : FetchReq) ∈
      (showSync (showSync initialMgr "https://a.com/" 0) "https://b.com/" 1).inflight ∧
    requestCancelled (showSync (showSync initialMgr "https://a.com/" 0) "https://b.com/" 1)
      { url := "https://a.com/", signalController := none } = false :=
  ⟨by decide, by decide, by decide⟩

/-- C9: with a valid URL, trackLinkClick with history tracking disabled
reports success and leaves the store untouched; with tracking enabled it
prepends exactly one entry (hostname stripped of a leading www., the
timestamp, and the time-random id) and keeps only the latest 100 entries. -/
theorem trackLinkClick_spec (store : LocalStore) (url : String) (now : Nat)
    (randId : String) (u : URLRec) (hurl : parseURL url = some u) :
    trackLinkClick false store url now randId =
      ({ success := true, tracked := some false }, store) ∧
    (trackLinkClick true store url now randId).2.clickHistory =
      ({ url := url, hostname := stripWww u.host, timestamp := now,
         id := String.mk (natToChars now) ++ "-" ++ randId } :: store.clickHistory).take 100 ∧
    (trackLinkClick true store url now randId).1 =
      { success := true, tracked := some true } := by
  have hne : url ≠ "" := by
    intro hcon
    rw [hcon] at hurl
    have hnone : parseURL "" = none := by decide
    rw [hnone] at hurl
    exact Option.noConfusion hurl
  refine ⟨?_, ?_, ?_⟩
  · unfold trackLinkClick
    rw [if_neg hne]
    rfl
  · unfold trackLinkClick
    rw [if_neg hne, hurl]
    rfl
  · unfold trackLinkClick
    rw [if_neg hne, hurl]
    rfl

/-- C9 witness: a concrete click on https://www.example.com/x. -/
theorem trackLinkClick_spec_witness :
    trackLinkClick false ⟨[], ⟨0, []⟩⟩ "https://www.example.com/x" 5 "abc" =
      ({ success := true, tracked := some false }, ⟨[], ⟨0, []⟩⟩) ∧
    (trackLinkClick true ⟨[], ⟨0, []⟩⟩ "https://www.example.com/x" 5 "abc").2.clickHistory =
      [{ url := "https://www.example.com/x", hostname := "example.com", timestamp := 5,
         id := "5-abc" }] ∧
    (trackLinkClick true ⟨[], ⟨0, []⟩⟩ "https://www.example.com/x" 5 "abc").1 =
      { success := true, tracked := some true } := by
  have h := trackLinkClick_spec ⟨[], ⟨0, []⟩⟩ "https://www.example.com/x" 5 "abc"
    { scheme := "https", userinfo := "", host := "www.example.com", port := none,
      path := "/x", query := none, fragment := none, hasAuthority := true } (by decide)
  exact ⟨h.1, by rw [h.2.1]; decide, h.2.2⟩

/-- C10: the visible text of the linkifyText output reproduces the input
exactly: concatenating the plain runs and the anchor labels in order yields
the original character list, including text of skipped matches. -/
theorem linkifyText_preserves_text (text : String) :
    flattenSegs (linkifyText text) = text.data :=
  flatten_linkifyScan text.data (text.data.length + 1) 0 0 (Nat.le_refl 0)

end InstaClick
